import Mathlib

/-!
Verification of the rounded-corner GIF pipeline (src/index.py).

The program is a three-stage pipeline over raster frames:
`mask_rounded_corners` paints a rounded-rectangle alpha mask onto a frame,
`transparent_indexed_gif_frame` quantizes an RGBA frame to a palette frame
with index 255 reserved for transparency, and `create_rounded_corners_gif`
drives both over every frame of an animation and writes the result once.

Frames are modelled as total pixel functions together with explicit
dimensions.  The Pillow primitives the program calls (rounded rectangle
drawing, Gaussian blur, adaptive palette quantization, paste with a mask)
are not part of the repository; each is modelled here by its documented
behaviour, recorded in the doc comment of the corresponding definition.
-/

/-- Pixel of a full-color-with-alpha (RGBA) frame: four channels in 0..255. -/
structure RGBA where
  r : Nat
  g : Nat
  b : Nat
  a : Nat
deriving DecidableEq, Repr

/-- Pixel of a full-color-without-alpha (RGB) frame. -/
structure RGB where
  r : Nat
  g : Nat
  b : Nat
deriving DecidableEq, Repr

/-- Raster image: a width, a height and a total pixel map.  Only the pixels
with x < width and y < height are meaningful; the map is total so that the
embedding stays purely functional. -/
structure Img (α : Type) where
  width : Nat
  height : Nat
  px : Nat → Nat → α

/-- Model of the fill region of PIL ImageDraw.rounded_rectangle over the
bounding box (0, 0, w, h) with corner radius r, as the program calls it.
A pixel (x, y) is painted iff its distance to the inner rectangle
[r, w - r] x [r, h - r] is at most r; equivalently, iff it lies in the
rounded rectangle made of the four corner discs of radius r and the two
connecting bands.  PIL box coordinates are inclusive, and the program
passes (0, 0, w, h) rather than (0, 0, w - 1, h - 1), so the right and
bottom arcs are centered at column w - r and row h - r, one past the
centers the exact full-frame box would give.  With radius 0 PIL falls back
to a plain rectangle, which this predicate also yields (distance 0). -/
def insideRoundedRect (w h r x y : Nat) : Bool :=
  let cx : Int := max (r : Int) (min ((w : Int) - r) (x : Int))
  let cy : Int := max (r : Int) (min ((h : Int) - r) (y : Int))
  decide (((x : Int) - cx) ^ 2 + ((y : Int) - cy) ^ 2 ≤ (r : Int) ^ 2)

/-- Grayscale mask built by mask_rounded_corners: a new L-mode image of the
frame dimensions, 0 everywhere, with the rounded rectangle painted 255. -/
def roundedMask (w h r : Nat) : Img Nat :=
  { width := w, height := h,
    px := fun x y => if insideRoundedRect w h r x y then 255 else 0 }

/-- Clamp an integer coordinate into 0 .. n - 1, the edge extension used when
a convolution window leaves the image. -/
def clampCoord (n : Nat) (i : Int) : Nat :=
  (min ((n : Int) - 1) (max 0 i)).toNat

/-- Integer square root (largest s with s * s ≤ n), written as a bounded
search so that it reduces inside the kernel. -/
def natSqrt (n : Nat) : Nat :=
  ((List.range (n + 1)).filter (fun s => s * s ≤ n)).foldl max 0

/-- Per-pass box radius Pillow derives from a Gaussian radius (the standard
deviation) for its three-pass box approximation (BoxBlur.c, after Gwosdek
et al.): the per-pass variance is rad^2 / 3, the box length is
sqrt(12 * (rad^2 / 3) + 1) = sqrt(4 * rad^2 + 1), and the box radius is half
of (length - 1).  Computed here in integer arithmetic; the fractional tail
of the extended box is dropped. -/
def boxRadiusForGaussian (rad : Nat) : Nat :=
  (natSqrt (4 * rad * rad + 1) - 1) / 2

/-- Read a row entry with edge replication: an out-of-range index clamps to
the nearest valid index, as the Pillow box blur treats pixels beyond the
line. -/
def rowGet (row : List Nat) (i : Int) : Nat :=
  row.getD (clampCoord row.length i) 0

/-- One pass of a box blur of the given integer radius along one row: each
entry becomes the renormalized sum of the window of width 2 * rad + 1
around it, with edge replication. -/
def boxBlurRow (rad : Nat) (row : List Nat) : List Nat :=
  (List.range row.length).map (fun x =>
    ((List.range (2 * rad + 1)).map (fun d => rowGet row ((x : Int) + d - rad))).sum
      / (2 * rad + 1))

/-- The pixel grid of a single-channel image as a list of rows. -/
def imgToRows (img : Img Nat) : List (List Nat) :=
  (List.range img.height).map (fun y => (List.range img.width).map (fun x => img.px x y))

/-- Model of PIL ImageFilter.GaussianBlur rad.  Pillow implements it as
three horizontal and then three vertical passes of an extended box filter
whose per-pass radius comes from the Gwosdek formula, with edge replication,
computed in fixed-point arithmetic (BoxBlur.c).  The model keeps exactly
that structure: three horizontal passes of an integer box of radius
boxRadiusForGaussian rad over the pixel grid, a transposition, three more
such passes, and a transposition back, with edge replication and
floor-division renormalization per pass.  The fractional box tail and the
float rounding of Pillow are not reproduced, so statements that depend on
the blur are settled only at inputs whose distance from the downstream
threshold far exceeds that per-pass approximation error. -/
def gaussianBlur (img : Img Nat) (rad : Nat) : Img Nat :=
  let r := boxRadiusForGaussian rad
  let pass : List (List Nat) → List (List Nat) := fun m => m.map (boxBlurRow r)
  let mH := pass (pass (pass (imgToRows img)))
  let mV := pass (pass (pass mH.transpose))
  let blurred := mV.transpose
  { width := img.width, height := img.height,
    px := fun x y => rowGet (blurred.getD (clampCoord img.height (y : Int)) []) (x : Int) }

/-- The mask mask_rounded_corners ends up applying: the rounded-rectangle
mask, blurred iff blur_radius > 0 (lines 14-23 of src/index.py). -/
def maskForFrame (w h corner_radius blur_radius : Nat) : Img Nat :=
  if blur_radius > 0 then gaussianBlur (roundedMask w h corner_radius) blur_radius
  else roundedMask w h corner_radius

/-- Model of PIL Image.putalpha: replace the alpha channel of the image with
the given single-channel mask, leaving the color channels untouched. -/
def putalpha (img : Img RGBA) (mask : Img Nat) : Img RGBA :=
  { img with px := fun x y => { img.px x y with a := mask.px x y } }

/-- Embedding of mask_rounded_corners (src/index.py lines 3-28): convert to
RGBA (the identity on the RGBA frames modelled here), build the grayscale
rounded-rectangle mask of the frame dimensions, optionally blur it, and put
it as the alpha channel of a copy of the frame. -/
def mask_rounded_corners (pil_img : Img RGBA) (corner_radius blur_radius : Nat) : Img RGBA :=
  putalpha pil_img (maskForFrame pil_img.width pil_img.height corner_radius blur_radius)

/-- Model of Image.getchannel applied to the alpha band. -/
def getchannelA (img : Img RGBA) : Img Nat :=
  { width := img.width, height := img.height, px := fun x y => (img.px x y).a }

/-- Model of convert to RGB: drop the alpha channel. -/
def convertRGB (img : Img RGBA) : Img RGB :=
  { width := img.width, height := img.height,
    px := fun x y => { r := (img.px x y).r, g := (img.px x y).g, b := (img.px x y).b } }

/-- Model of Image.eval: apply a point function to every pixel of a
single-channel image. -/
def imageEval (img : Img Nat) (f : Nat → Nat) : Img Nat :=
  { img with px := fun x y => f (img.px x y) }

/-- Row-major list of the colors of an RGB image, the scan order the
quantizer sees. -/
def pixelColors (img : Img RGB) : List RGB :=
  (List.range img.height).flatMap (fun y => (List.range img.width).map (fun x => img.px x y))

/-- Distinct elements of a list in first-occurrence order. -/
def dedupKeepFirst (l : List RGB) : List RGB :=
  l.foldl (fun acc c => if c ∈ acc then acc else acc ++ [c]) []

/-- Squared distance between two RGB colors, the metric used to map a pixel
to its nearest palette entry. -/
def sqDistRGB (c d : RGB) : Nat :=
  (max c.r d.r - min c.r d.r) ^ 2 + (max c.g d.g - min c.g d.g) ^ 2
    + (max c.b d.b - min c.b d.b) ^ 2

/-- Index of the palette color nearest to c (first index on ties); 0 when
the palette is empty. -/
def quantIdx (c : RGB) (pal : List RGB) : Nat :=
  match pal.argmin (sqDistRGB c) with
  | some m => pal.indexOf m
  | none => 0

/-- Palette-indexed frame: dimensions, palette, one palette index per pixel,
and the optional transparency index recorded in the frame info metadata. -/
structure PFrame where
  width : Nat
  height : Nat
  palette : List RGB
  idx : Nat → Nat → Nat
  transparency : Option Nat

/-- Model of convert to mode P with palette=Image.ADAPTIVE and a color
budget: adaptive palette quantization.  The median-cut internals of PIL are
not reproduced; the model keeps the contract the program relies on: the
palette has at most colors entries, so every pixel receives an index below
colors, here the index of its nearest palette color.  The palette is taken
to be the distinct colors of the frame in scan order, truncated to the
budget.  No transparency is recorded by conversion itself. -/
def convertP (img : Img RGB) (colors : Nat) : PFrame :=
  let pal := (dedupKeepFirst (pixelColors img)).take colors
  { width := img.width, height := img.height, palette := pal,
    idx := fun x y => quantIdx (img.px x y) pal,
    transparency := none }

/-- Model of the abbreviated paste(value, mask) call on a palette frame with
an L-mode mask: pixels where the mask is 255 receive the pasted index,
pixels where it is 0 keep theirs.  The program only ever passes a mask with
values in the set containing 0 and 255, on which this is exactly the PIL
behaviour. -/
def pasteIndex (dst : PFrame) (v : Nat) (mask : Img Nat) : PFrame :=
  { dst with idx := fun x y => if mask.px x y = 255 then v else dst.idx x y }

/-- Embedding of transparent_indexed_gif_frame (src/index.py lines 30-50):
extract the alpha channel, quantize the RGB content to at most 255 colors,
build the binary mask marking alpha at most 128 as transparent, paste
palette index 255 through that mask, and record 255 as the transparency
index in the frame metadata. -/
def transparent_indexed_gif_frame (rgba_frame : Img RGBA) : PFrame :=
  let alpha := getchannelA rgba_frame
  let pal_frame := convertP (convertRGB rgba_frame) 255
  let mask := imageEval alpha (fun a => if a ≤ 128 then 255 else 0)
  let pasted := pasteIndex pal_frame 255 mask
  { pasted with transparency := some 255 }

/-- Failure raised by the underlying image library while reading or
transforming a frame; it propagates uncaught. -/
inductive PilError
  | decodeError
deriving DecidableEq, Repr

/-- The animated file written by the save call: base frame, appended frames,
and the save parameters the program fixes (loop=0, disposal=2,
optimize=False). -/
structure GifFile where
  base : PFrame
  appended : List PFrame
  loop : Nat
  disposal : Nat
  optimize : Bool

/-- Observable outcome of one run of create_rounded_corners_gif: the file
written to output_gif if any, the console lines printed, and the uncaught
library error if the run aborted. -/
structure RunResult where
  written : Option GifFile
  printed : List String
  error : Option PilError

/-- The success line printed after saving (src/index.py line 84). -/
def savedMsg (output_gif : String) : String :=
  "Saved rounded-corner GIF to: " ++ output_gif

/-- The diagnostic line printed when no frames were found (line 86). -/
def noFramesMsg (input_gif : String) : String :=
  "No frames found in " ++ input_gif

/-- The frame-collection loop (lines 58-71).  Each element of the list is
the outcome of reading and decoding one frame of the input sequence; the
loop transforms frames in order and aborts at the first library failure,
which propagates. -/
def collectFrames (corner_radius blur_radius : Nat) :
    List (Except PilError (Img RGBA)) → Except PilError (List PFrame)
  | [] => Except.ok []
  | Except.error e :: _ => Except.error e
  | Except.ok f :: rest =>
      match collectFrames corner_radius blur_radius rest with
      | Except.error e => Except.error e
      | Except.ok fs =>
          Except.ok (transparent_indexed_gif_frame
            (mask_rounded_corners f corner_radius blur_radius) :: fs)

/-- Embedding of create_rounded_corners_gif (src/index.py lines 52-86).
The input animation is modelled as the list of per-frame read outcomes.
If any read fails the exception propagates and nothing is written or
printed; otherwise, if at least one frame was collected, the single save
call writes all frames with loop=0, disposal=2, optimize=False and one
success line is printed; with zero frames nothing is written and one
diagnostic line naming the input path is printed. -/
def create_rounded_corners_gif (frameReads : List (Except PilError (Img RGBA)))
    (input_gif output_gif : String) (corner_radius blur_radius : Nat) : RunResult :=
  match collectFrames corner_radius blur_radius frameReads with
  | Except.error e => { written := none, printed := [], error := some e }
  | Except.ok [] =>
      { written := none, printed := [noFramesMsg input_gif], error := none }
  | Except.ok (f :: fs) =>
      { written := some { base := f, appended := fs, loop := 0, disposal := 2, optimize := false },
        printed := [savedMsg output_gif], error := none }

/-- Model of a file successfully opened by Image.open: a successfully
decoded image always exposes its first frame (seek 0 is the already-loaded
frame), so the frame iterator of ImageSequence yields at least one frame.
The nonemptiness field records that documented library guarantee. -/
structure OpenedImage where
  frames : List (Img RGBA)
  frames_nonempty : frames ≠ []

/-- Constant-color image, used for concrete witnesses. -/
def solidImg (w h : Nat) (c : RGBA) : Img RGBA :=
  { width := w, height := h, px := fun _ _ => c }

/-- Concrete 8 x 8 fully opaque frame used for counterexamples. -/
def img8 : Img RGBA :=
  solidImg 8 8 { r := 200, g := 30, b := 30, a := 255 }

/-- Concrete 8 x 8 fully opaque frame used for witnesses. -/
def img8w : Img RGBA :=
  solidImg 8 8 { r := 10, g := 160, b := 90, a := 255 }

/-- Concrete 2 x 1 frame whose two pixels sit exactly on the two sides of
the alpha threshold: alpha 128 at x = 0 and alpha 129 at x = 1. -/
def imgThreshold : Img RGBA :=
  { width := 2, height := 1,
    px := fun x _ => if x = 0 then { r := 10, g := 20, b := 30, a := 128 }
                     else { r := 10, g := 200, b := 30, a := 129 } }

/-- The index of the nearest palette color is a valid index whenever the
palette is nonempty. -/
theorem quantIdx_lt_length (c : RGB) (pal : List RGB) (h : pal ≠ []) :
    quantIdx c pal < pal.length := by
  unfold quantIdx
  cases hm : pal.argmin (sqDistRGB c) with
  | none => exact absurd (List.argmin_eq_none.mp hm) h
  | some m => exact List.indexOf_lt_length.mpr (List.argmin_mem hm)

/-- Quantization with a budget of 255 colors only ever assigns the indices
0 .. 254; index 255 is never produced by the quantizer. -/
theorem convertP_idx_le (img : Img RGB) (x y : Nat) :
    (convertP img 255).idx x y ≤ 254 := by
  show quantIdx (img.px x y) ((dedupKeepFirst (pixelColors img)).take 255) ≤ 254
  by_cases h : (dedupKeepFirst (pixelColors img)).take 255 = []
  · simp [h, quantIdx]
  · have hlt := quantIdx_lt_length (img.px x y) _ h
    have hle : ((dedupKeepFirst (pixelColors img)).take 255).length ≤ 255 := by
      rw [List.length_take]
      exact min_le_left _ _
    omega

/-- The quantized palette has at most 255 entries. -/
theorem convertP_palette_le (img : Img RGB) :
    (convertP img 255).palette.length ≤ 255 := by
  unfold convertP
  rw [List.length_take]
  exact min_le_left _ _

/-- Pixelwise description of transparent_indexed_gif_frame: a pixel with
alpha at most 128 receives index 255, any other pixel keeps its quantized
index. -/
theorem tig_idx (f : Img RGBA) (x y : Nat) :
    (transparent_indexed_gif_frame f).idx x y =
      if (f.px x y).a ≤ 128 then 255 else (convertP (convertRGB f) 255).idx x y := by
  show (if (if (f.px x y).a ≤ 128 then 255 else 0) = 255 then 255
      else (convertP (convertRGB f) 255).idx x y) = _
  by_cases h : (f.px x y).a ≤ 128 <;> simp [h]

/-- Dropping the alpha channel after mask_rounded_corners recovers exactly
the color content of the input frame: the mask only touches alpha. -/
theorem convertRGB_mask_rounded_corners (f : Img RGBA) (cr br : Nat) :
    convertRGB (mask_rounded_corners f cr br) = convertRGB f := rfl

/-- The alpha channel written by mask_rounded_corners is exactly the
computed mask. -/
theorem mask_rounded_corners_alpha (f : Img RGBA) (cr br : Nat) (x y : Nat) :
    ((mask_rounded_corners f cr br).px x y).a
      = (maskForFrame f.width f.height cr br).px x y := rfl

/-- With blur_radius 0 the blur branch is skipped and the mask is the sharp
rounded rectangle. -/
theorem maskForFrame_zero (w h cr : Nat) :
    maskForFrame w h cr 0 = roundedMask w h cr := rfl

/-- Pixelwise description of the unblurred pipeline: a pixel inside the
rounded rectangle keeps its quantized index, any other pixel receives the
transparency index 255. -/
theorem pipeline_blur0_idx (f : Img RGBA) (r x y : Nat) :
    (transparent_indexed_gif_frame (mask_rounded_corners f r 0)).idx x y =
      if insideRoundedRect f.width f.height r x y
      then (convertP (convertRGB f) 255).idx x y else 255 := by
  rw [tig_idx, convertRGB_mask_rounded_corners]
  have ha : ((mask_rounded_corners f r 0).px x y).a
      = (if insideRoundedRect f.width f.height r x y then 255 else 0) := rfl
  rw [ha]
  by_cases hin : insideRoundedRect f.width f.height r x y <;> simp [hin]

/-- Unfolding of the membership test of the rounded-rectangle region. -/
theorem insideRoundedRect_iff (w h r x y : Nat) :
    insideRoundedRect w h r x y = true ↔
      ((x : Int) - max (r : Int) (min ((w : Int) - r) (x : Int))) ^ 2
        + ((y : Int) - max (r : Int) (min ((h : Int) - r) (y : Int))) ^ 2
        ≤ (r : Int) ^ 2 := by
  unfold insideRoundedRect
  simp

/-- The top-left corner pixel (0, 0) lies outside the painted region for
every positive radius. -/
theorem insideRR_corner_tl (w h r : Nat) (hr : 1 ≤ r) (hw : 2 * r ≤ w) (hh : 2 * r ≤ h) :
    insideRoundedRect w h r 0 0 = false := by
  rw [Bool.eq_false_iff, Ne, insideRoundedRect_iff]
  intro hle
  have e1 : max (r : Int) (min ((w : Int) - (r : Int)) (((0 : Nat)) : Int)) = (r : Int) := by
    omega
  have e2 : max (r : Int) (min ((h : Int) - (r : Int)) (((0 : Nat)) : Int)) = (r : Int) := by
    omega
  rw [e1, e2] at hle
  have hr' : (1 : Int) ≤ (r : Int) := by exact_mod_cast hr
  have hc : (((0 : Nat)) : Int) = 0 := by omega
  rw [hc] at hle
  nlinarith [hle, hr']

/-- The top-right corner pixel (w - 1, 0) lies outside the painted region
for every radius at least 2. -/
theorem insideRR_corner_tr (w h r : Nat) (hr : 2 ≤ r) (hw : 2 * r ≤ w) (hh : 2 * r ≤ h) :
    insideRoundedRect w h r (w - 1) 0 = false := by
  rw [Bool.eq_false_iff, Ne, insideRoundedRect_iff]
  intro hle
  have e1 : max (r : Int) (min ((w : Int) - (r : Int)) (((w - 1 : Nat)) : Int))
      = (w : Int) - r := by omega
  have e2 : max (r : Int) (min ((h : Int) - (r : Int)) (((0 : Nat)) : Int)) = (r : Int) := by
    omega
  rw [e1, e2] at hle
  have e3 : (((w - 1 : Nat)) : Int) = (w : Int) - 1 := by omega
  have e4 : (((0 : Nat)) : Int) = 0 := by omega
  rw [e3, e4] at hle
  have hr' : (2 : Int) ≤ (r : Int) := by exact_mod_cast hr
  nlinarith [hle, hr', mul_nonneg (by linarith : (0 : Int) ≤ (r : Int))
    (by linarith : (0 : Int) ≤ (r : Int) - 2)]

/-- The bottom-left corner pixel (0, h - 1) lies outside the painted region
for every radius at least 2. -/
theorem insideRR_corner_bl (w h r : Nat) (hr : 2 ≤ r) (hw : 2 * r ≤ w) (hh : 2 * r ≤ h) :
    insideRoundedRect w h r 0 (h - 1) = false := by
  rw [Bool.eq_false_iff, Ne, insideRoundedRect_iff]
  intro hle
  have e1 : max (r : Int) (min ((w : Int) - (r : Int)) (((0 : Nat)) : Int)) = (r : Int) := by
    omega
  have e2 : max (r : Int) (min ((h : Int) - (r : Int)) (((h - 1 : Nat)) : Int))
      = (h : Int) - r := by omega
  rw [e1, e2] at hle
  have e3 : (((h - 1 : Nat)) : Int) = (h : Int) - 1 := by omega
  have e4 : (((0 : Nat)) : Int) = 0 := by omega
  rw [e3, e4] at hle
  have hr' : (2 : Int) ≤ (r : Int) := by exact_mod_cast hr
  nlinarith [hle, hr', mul_nonneg (by linarith : (0 : Int) ≤ (r : Int))
    (by linarith : (0 : Int) ≤ (r : Int) - 2)]

/-- The bottom-right corner pixel (w - 1, h - 1) lies outside the painted
region for every radius at least 4.  For radius 1, 2 or 3 it can lie inside,
because the box the program passes is one pixel wider and taller than the
frame. -/
theorem insideRR_corner_br (w h r : Nat) (hr : 4 ≤ r) (hw : 2 * r ≤ w) (hh : 2 * r ≤ h) :
    insideRoundedRect w h r (w - 1) (h - 1) = false := by
  rw [Bool.eq_false_iff, Ne, insideRoundedRect_iff]
  intro hle
  have e1 : max (r : Int) (min ((w : Int) - (r : Int)) (((w - 1 : Nat)) : Int))
      = (w : Int) - r := by omega
  have e2 : max (r : Int) (min ((h : Int) - (r : Int)) (((h - 1 : Nat)) : Int))
      = (h : Int) - r := by omega
  rw [e1, e2] at hle
  have e3 : (((w - 1 : Nat)) : Int) = (w : Int) - 1 := by omega
  have e4 : (((h - 1 : Nat)) : Int) = (h : Int) - 1 := by omega
  rw [e3, e4] at hle
  have hr' : (4 : Int) ≤ (r : Int) := by exact_mod_cast hr
  nlinarith [hle, hr', mul_nonneg (by linarith : (0 : Int) ≤ (r : Int))
    (by linarith : (0 : Int) ≤ (r : Int) - 4)]

/-- The central pixel (w / 2, h / 2) lies inside the painted region whenever
the radius is at most half the minimum dimension. -/
theorem insideRR_center (w h r : Nat) (hw : 2 * r ≤ w) (hh : 2 * r ≤ h) :
    insideRoundedRect w h r (w / 2) (h / 2) = true := by
  rw [insideRoundedRect_iff]
  have e1 : max (r : Int) (min ((w : Int) - (r : Int)) (((w / 2 : Nat)) : Int))
      = (((w / 2 : Nat)) : Int) := by omega
  have e2 : max (r : Int) (min ((h : Int) - (r : Int)) (((h / 2 : Nat)) : Int))
      = (((h / 2 : Nat)) : Int) := by omega
  rw [e1, e2]
  ring_nf
  positivity

/-- C1 (amended): for every input frame, for every corner_radius at least 4
and at most half the minimum dimension of the frame, with blur_radius 0,
the quantized output frame of the pipeline carries transparency index 255
at all four extreme corner pixels, and the pixel at the exact center
(width / 2, height / 2) does not carry it.  As originally stated the claim
also covers radii 0 to 3, where it fails: radius 0 paints the full
rectangle, and for radii 1 to 3 the box (0, 0, w, h) the program passes
extends one pixel past the last column and row, leaving right or bottom
corner pixels inside the painted region. -/
theorem c1_corners_transparent_center_opaque (f : Img RGBA) (r : Nat)
    (hr : 4 ≤ r) (hw : 2 * r ≤ f.width) (hh : 2 * r ≤ f.height) :
    (transparent_indexed_gif_frame (mask_rounded_corners f r 0)).idx 0 0 = 255 ∧
    (transparent_indexed_gif_frame (mask_rounded_corners f r 0)).idx (f.width - 1) 0 = 255 ∧
    (transparent_indexed_gif_frame (mask_rounded_corners f r 0)).idx 0 (f.height - 1) = 255 ∧
    (transparent_indexed_gif_frame (mask_rounded_corners f r 0)).idx (f.width - 1) (f.height - 1)
      = 255 ∧
    (transparent_indexed_gif_frame (mask_rounded_corners f r 0)).idx (f.width / 2) (f.height / 2)
      ≠ 255 := by
  refine ⟨?_, ?_, ?_, ?_, ?_⟩
  · rw [pipeline_blur0_idx, insideRR_corner_tl f.width f.height r (by omega) hw hh]
    simp
  · rw [pipeline_blur0_idx, insideRR_corner_tr f.width f.height r (by omega) hw hh]
    simp
  · rw [pipeline_blur0_idx, insideRR_corner_bl f.width f.height r (by omega) hw hh]
    simp
  · rw [pipeline_blur0_idx, insideRR_corner_br f.width f.height r hr hw hh]
    simp
  · rw [pipeline_blur0_idx, insideRR_center f.width f.height r hw hh]
    have hb := convertP_idx_le (convertRGB f) (f.width / 2) (f.height / 2)
    simp
    omega

set_option maxRecDepth 100000 in
/-- C1 counterexample: on a concrete fully opaque 8 x 8 frame, radius 0 is
admissible for the claim as stated yet leaves the corner pixel (0, 0)
opaque, and radius 3 is admissible yet leaves the corner pixel (7, 7)
opaque. -/
theorem c1_counterexample :
    2 * 0 ≤ min img8.width img8.height ∧
    (transparent_indexed_gif_frame (mask_rounded_corners img8 0 0)).idx 0 0 ≠ 255 ∧
    2 * 3 ≤ min img8.width img8.height ∧
    (transparent_indexed_gif_frame (mask_rounded_corners img8 3 0)).idx
      (img8.width - 1) (img8.height - 1) ≠ 255 := by decide

/-- C1 witness: the amended theorem applied to a concrete 8 x 8 frame with
radius 4. -/
theorem c1_witness :
    (transparent_indexed_gif_frame (mask_rounded_corners img8w 4 0)).idx 0 0 = 255 ∧
    (transparent_indexed_gif_frame (mask_rounded_corners img8w 4 0)).idx (img8w.width - 1) 0
      = 255 ∧
    (transparent_indexed_gif_frame (mask_rounded_corners img8w 4 0)).idx 0 (img8w.height - 1)
      = 255 ∧
    (transparent_indexed_gif_frame (mask_rounded_corners img8w 4 0)).idx
      (img8w.width - 1) (img8w.height - 1) = 255 ∧
    (transparent_indexed_gif_frame (mask_rounded_corners img8w 4 0)).idx
      (img8w.width / 2) (img8w.height / 2) ≠ 255 :=
  c1_corners_transparent_center_opaque img8w 4 (by decide) (by decide) (by decide)

/-- C2: in the output of transparent_indexed_gif_frame, a pixel carries
palette index 255 iff its source alpha is at most 128. -/
theorem c2_alpha_threshold_iff (f : Img RGBA) (x y : Nat)
    (hx : x < f.width) (hy : y < f.height) :
    (transparent_indexed_gif_frame f).idx x y = 255 ↔ (f.px x y).a ≤ 128 := by
  rw [tig_idx]
  by_cases h : (f.px x y).a ≤ 128
  · simp [h]
  · have hb := convertP_idx_le (convertRGB f) x y
    simp [h]
    omega

/-- C2 witness: the threshold theorem applied at the two pixels of a
concrete frame whose alphas are exactly 128 and 129. -/
theorem c2_witness :
    ((transparent_indexed_gif_frame imgThreshold).idx 0 0 = 255
      ↔ (imgThreshold.px 0 0).a ≤ 128) ∧
    ((transparent_indexed_gif_frame imgThreshold).idx 1 0 = 255
      ↔ (imgThreshold.px 1 0).a ≤ 128) :=
  ⟨c2_alpha_threshold_iff imgThreshold 0 0 (by decide) (by decide),
   c2_alpha_threshold_iff imgThreshold 1 0 (by decide) (by decide)⟩

/-- C3: the frame returned by transparent_indexed_gif_frame records 255,
and nothing else, as its transparency index; the quantizer works with a
palette of at most 255 colors and never assigns index 255 to a pixel (its
indices stay within 0 .. 254). -/
theorem c3_reserved_index (f : Img RGBA) (x y : Nat) :
    (transparent_indexed_gif_frame f).transparency = some 255 ∧
    (transparent_indexed_gif_frame f).palette.length ≤ 255 ∧
    (convertP (convertRGB f) 255).idx x y ≤ 254 :=
  ⟨rfl, convertP_palette_le (convertRGB f), convertP_idx_le (convertRGB f) x y⟩

/-- C4: both pipeline stages, and hence their composition, preserve the
frame dimensions. -/
theorem c4_dimensions_preserved (f : Img RGBA) (corner_radius blur_radius : Nat) :
    (mask_rounded_corners f corner_radius blur_radius).width = f.width ∧
    (mask_rounded_corners f corner_radius blur_radius).height = f.height ∧
    (transparent_indexed_gif_frame f).width = f.width ∧
    (transparent_indexed_gif_frame f).height = f.height ∧
    (transparent_indexed_gif_frame (mask_rounded_corners f corner_radius blur_radius)).width
      = f.width ∧
    (transparent_indexed_gif_frame (mask_rounded_corners f corner_radius blur_radius)).height
      = f.height :=
  ⟨rfl, rfl, rfl, rfl, rfl, rfl⟩

/-- C7 (amended): for every frame, radius and blur radius, the blurred and
the unblurred pipeline outputs have the same palette and the same recorded
transparency index, and their pixel indices agree wherever neither side is
the transparency index 255: blurring can only move pixels across the 1-bit
transparency threshold, not change any visible color index.  The original
claim that the outputs are identical fails; see the counterexample. -/
theorem c7_blur_moves_only_threshold (f : Img RGBA) (r b : Nat) :
    (transparent_indexed_gif_frame (mask_rounded_corners f r b)).palette
      = (transparent_indexed_gif_frame (mask_rounded_corners f r 0)).palette ∧
    (transparent_indexed_gif_frame (mask_rounded_corners f r b)).transparency
      = (transparent_indexed_gif_frame (mask_rounded_corners f r 0)).transparency ∧
    ∀ x y : Nat,
      (transparent_indexed_gif_frame (mask_rounded_corners f r b)).idx x y
        = (transparent_indexed_gif_frame (mask_rounded_corners f r 0)).idx x y ∨
      (transparent_indexed_gif_frame (mask_rounded_corners f r b)).idx x y = 255 ∨
      (transparent_indexed_gif_frame (mask_rounded_corners f r 0)).idx x y = 255 := by
  refine ⟨rfl, rfl, fun x y => ?_⟩
  rw [tig_idx, tig_idx, convertRGB_mask_rounded_corners, convertRGB_mask_rounded_corners]
  by_cases hb : ((mask_rounded_corners f r b).px x y).a ≤ 128
  · right; left; simp [hb]
  · by_cases h0 : ((mask_rounded_corners f r 0).px x y).a ≤ 128
    · right; right; simp [h0]
    · left; simp [hb, h0]

set_option maxRecDepth 1000000 in
/-- C7 counterexample: on a concrete fully opaque 8 x 8 frame with corner
radius 4, blur radius 20 and blur radius 0 give different quantized
outputs at the center pixel (4, 4).  The mask is the centered disc of
radius 4 (here the box spans the full frame, so PIL and the model draw the
same integer disc); with a per-pass box radius of 19, more than twice the
frame width, every blur window is dominated by edge replication of the
mostly unpainted border rows, and the blurred mask collapses to small
values everywhere (about 38 at the center, against a threshold of 128 - a
margin far beyond the fractional-box and float rounding the model drops,
and the same collapse follows from the replication weights of the real
three-pass filter).  So with blur the center pixel falls to alpha below
the threshold and receives index 255, while without blur it keeps its
quantized color index. -/
theorem c7_counterexample :
    (transparent_indexed_gif_frame (mask_rounded_corners img8 4 20)).idx 4 4 ≠
      (transparent_indexed_gif_frame (mask_rounded_corners img8 4 0)).idx 4 4 := by decide

/-- C8: applying mask_rounded_corners twice with the same radii yields an
alpha channel exactly equal, pixel for pixel, to applying it once; the
second application replaces the alpha channel with the same mask, computed
from the unchanged dimensions.  Exact equality holds for every blur radius,
in particular for blur radius 0. -/
theorem c8_masker_idempotent (f : Img RGBA) (corner_radius blur_radius x y : Nat) :
    ((mask_rounded_corners (mask_rounded_corners f corner_radius blur_radius)
        corner_radius blur_radius).px x y).a
      = ((mask_rounded_corners f corner_radius blur_radius).px x y).a := rfl

/-- C9: mask_rounded_corners returns a new frame (the embedding is purely
functional, so the input frame value is unchanged) whose alpha channel is
exactly the computed rounded-rectangle mask, optionally blurred, and whose
color channels equal those of the input at every pixel. -/
theorem c9_alpha_replaced_rgb_kept (f : Img RGBA) (corner_radius blur_radius x y : Nat) :
    ((mask_rounded_corners f corner_radius blur_radius).px x y).r = (f.px x y).r ∧
    ((mask_rounded_corners f corner_radius blur_radius).px x y).g = (f.px x y).g ∧
    ((mask_rounded_corners f corner_radius blur_radius).px x y).b = (f.px x y).b ∧
    ((mask_rounded_corners f corner_radius blur_radius).px x y).a
      = (maskForFrame f.width f.height corner_radius blur_radius).px x y :=
  ⟨rfl, rfl, rfl, rfl⟩

/-- Reading a sequence in which every frame decodes yields the in-order
list of processed frames. -/
theorem collectFrames_map_ok (corner_radius blur_radius : Nat) (frames : List (Img RGBA)) :
    collectFrames corner_radius blur_radius (frames.map Except.ok)
      = Except.ok (frames.map (fun f =>
          transparent_indexed_gif_frame (mask_rounded_corners f corner_radius blur_radius))) := by
  induction frames with
  | nil => rfl
  | cons f fs ih => simp [collectFrames, ih]

/-- C5: if reading or transforming any frame of the sequence fails, the
exception propagates out of create_rounded_corners_gif before the single
save call is reached, so no output file is written at all; a partially
written output is impossible because writing happens exactly once, after
every frame has been collected. -/
theorem c5_no_write_on_error (frameReads : List (Except PilError (Img RGBA)))
    (input_gif output_gif : String) (corner_radius blur_radius : Nat)
    (herr : (create_rounded_corners_gif frameReads input_gif output_gif
        corner_radius blur_radius).error ≠ none) :
    (create_rounded_corners_gif frameReads input_gif output_gif
        corner_radius blur_radius).written = none := by
  cases hc : collectFrames corner_radius blur_radius frameReads with
  | error e => simp [create_rounded_corners_gif, hc]
  | ok fs =>
      cases fs with
      | nil => simp [create_rounded_corners_gif, hc] at herr
      | cons g gs => simp [create_rounded_corners_gif, hc] at herr

/-- C5 witness: a run whose first frame read fails writes nothing. -/
theorem c5_witness :
    (create_rounded_corners_gif [Except.error PilError.decodeError]
        "input.gif" "output.gif" 30 0).written = none :=
  c5_no_write_on_error [Except.error PilError.decodeError] "input.gif" "output.gif" 30 0
    (by decide)

/-- C6: when every frame read succeeds, a run over zero frames writes no
file, prints exactly one diagnostic line naming the input path and raises
nothing, while a run over at least one frame writes the output file,
prints exactly one success line naming the output path and raises
nothing. -/
theorem c6_empty_or_success (frames : List (Img RGBA)) (input_gif output_gif : String)
    (corner_radius blur_radius : Nat) :
    (frames = [] →
      (create_rounded_corners_gif (frames.map Except.ok) input_gif output_gif
          corner_radius blur_radius).written = none ∧
      (create_rounded_corners_gif (frames.map Except.ok) input_gif output_gif
          corner_radius blur_radius).printed = [noFramesMsg input_gif] ∧
      (create_rounded_corners_gif (frames.map Except.ok) input_gif output_gif
          corner_radius blur_radius).error = none) ∧
    (frames ≠ [] →
      (create_rounded_corners_gif (frames.map Except.ok) input_gif output_gif
          corner_radius blur_radius).written.isSome = true ∧
      (create_rounded_corners_gif (frames.map Except.ok) input_gif output_gif
          corner_radius blur_radius).printed = [savedMsg output_gif] ∧
      (create_rounded_corners_gif (frames.map Except.ok) input_gif output_gif
          corner_radius blur_radius).error = none) := by
  cases frames with
  | nil =>
      refine ⟨fun _ => ⟨rfl, rfl, rfl⟩, fun hne => absurd rfl hne⟩
  | cons g gs =>
      refine ⟨fun hcontra => absurd hcontra (by simp), fun _ => ?_⟩
      have hc := collectFrames_map_ok corner_radius blur_radius (g :: gs)
      simp only [List.map_cons] at hc
      refine ⟨?_, ?_, ?_⟩ <;> simp [create_rounded_corners_gif, hc]

/-- C6 witness: the theorem applied to a concrete empty sequence and to a
concrete one-frame sequence. -/
theorem c6_witness :
    ((create_rounded_corners_gif (([] : List (Img RGBA)).map Except.ok)
        "input.gif" "output.gif" 30 0).written = none ∧
      (create_rounded_corners_gif (([] : List (Img RGBA)).map Except.ok)
        "input.gif" "output.gif" 30 0).printed = [noFramesMsg "input.gif"] ∧
      (create_rounded_corners_gif (([] : List (Img RGBA)).map Except.ok)
        "input.gif" "output.gif" 30 0).error = none) ∧
    ((create_rounded_corners_gif ([img8w].map Except.ok)
        "input.gif" "output.gif" 30 0).written.isSome = true ∧
      (create_rounded_corners_gif ([img8w].map Except.ok)
        "input.gif" "output.gif" 30 0).printed = [savedMsg "output.gif"] ∧
      (create_rounded_corners_gif ([img8w].map Except.ok)
        "input.gif" "output.gif" 30 0).error = none) :=
  ⟨(c6_empty_or_success [] "input.gif" "output.gif" 30 0).1 rfl,
   (c6_empty_or_success [img8w] "input.gif" "output.gif" 30 0).2 (List.cons_ne_nil img8w [])⟩

/-- C10: a successfully opened image always exposes at least one frame (the
OpenedImage model records that library guarantee), so when every frame read
succeeds the run always takes the save branch: the output is written, the
success line is printed, and the no-frames diagnostic branch is
unreachable. -/
theorem c10_open_always_writes (o : OpenedImage) (input_gif output_gif : String)
    (corner_radius blur_radius : Nat) :
    (create_rounded_corners_gif (o.frames.map Except.ok) input_gif output_gif
        corner_radius blur_radius).written.isSome = true ∧
    (create_rounded_corners_gif (o.frames.map Except.ok) input_gif output_gif
        corner_radius blur_radius).printed = [savedMsg output_gif] ∧
    (create_rounded_corners_gif (o.frames.map Except.ok) input_gif output_gif
        corner_radius blur_radius).error = none := by
  obtain ⟨frames, hne⟩ := o
  cases frames with
  | nil => exact absurd rfl hne
  | cons g gs =>
      have hc := collectFrames_map_ok corner_radius blur_radius (g :: gs)
      simp only [List.map_cons] at hc
      refine ⟨?_, ?_, ?_⟩ <;> simp [create_rounded_corners_gif, hc]

/-- C10 witness: the theorem applied to a concrete opened image holding one
frame. -/
theorem c10_witness :
    (create_rounded_corners_gif ([img8w].map Except.ok)
        "input.gif" "output.gif" 50 0).written.isSome = true ∧
    (create_rounded_corners_gif ([img8w].map Except.ok)
        "input.gif" "output.gif" 50 0).printed = [savedMsg "output.gif"] ∧
    (create_rounded_corners_gif ([img8w].map Except.ok)
        "input.gif" "output.gif" 50 0).error = none :=
  c10_open_always_writes ⟨[img8w], List.cons_ne_nil img8w []⟩ "input.gif" "output.gif" 50 0
